import Mathlib

/-!
A shallow embedding, in Lean 4, of the attendance-agent pipeline
(src/src/main.py, src/src/mail/email_classifier.py, src/src/mail/email_parser.py),
together with proofs about the embedded operations.

Strings are modelled as lists of characters.  The Python regular expressions used
by the source are embedded by bespoke backtracking matchers built from a small set
of combinators; every combinator is greedy-with-backtracking (or lazy where the
source pattern is lazy) and alternatives are tried in source order, which is
exactly CPython's regex semantics for the patterns that occur in this code base
(character classes, bounded and unbounded greedy repetition, optional atoms,
ordered alternation of literals, one lazy repetition).
-/

namespace AttendanceAgent

/-- Character lists: the model of Python strings. -/
abbrev Cs := List Char

/-- Python whitespace class for the patterns in scope (space, tab, CR, LF, FF, VT). -/
def isWs (c : Char) : Bool :=
  c = ' ' || c = '\t' || c = '\n' || c = '\r' || c = '\x0c' || c = '\x0b'

/-- ASCII decimal digit, the interpretation of the regex class for digits. -/
def isDig (c : Char) : Bool := '0' ≤ c && c ≤ '9'

/-- ASCII Latin letter, the interpretation of the regex class A-Za-z. -/
def isLatin (c : Char) : Bool := ('A' ≤ c && c ≤ 'Z') || ('a' ≤ c && c ≤ 'z')

/-- The Hangul-syllable character class (codepoints AC00 to D7A3). -/
def isHangul (c : Char) : Bool := 0xAC00 ≤ c.toNat && c.toNat ≤ 0xD7A3

/-- Python word character for the subject-name pattern.  CPython's unicode word
class also covers letters outside ASCII and Hangul; for the codepoint ranges the
mailbox produces (Latin names, digits, underscore, Hangul) this is exact. -/
def isWordCh (c : Char) : Bool := isLatin c || isDig c || c = '_' || isHangul c

/-- Match a literal character list at the front of the input, returning the rest. -/
def litAt : Cs → Cs → Option Cs
  | [], cs => some cs
  | _, [] => none
  | l :: ls, c :: cs => if l = c then litAt ls cs else none

/-- Literal atom in continuation-passing style. -/
def litC (l : Cs) (cs : Cs) (k : Cs → Option α) : Option α :=
  match litAt l cs with
  | some rest => k rest
  | none => none

/-- One character of a class, capturing it. -/
def clsOne (p : Char → Bool) (cs : Cs) (k : Cs → Cs → Option α) : Option α :=
  match cs with
  | [] => none
  | c :: rest => if p c then k [c] rest else none

/-- Optional character of a class (regex question mark), greedy: the branch that
consumes is preferred, with backtracking into the empty branch. -/
def clsOpt (p : Char → Bool) (cs : Cs) (k : Cs → Cs → Option α) : Option α :=
  match cs with
  | [] => k [] []
  | c :: rest => if p c then (k [c] rest).orElse (fun _ => k [] (c :: rest)) else k [] (c :: rest)

/-- Greedy star over a character class with full backtracking: longest match is
tried first, then progressively shorter ones. -/
def clsStar (p : Char → Bool) (acc : Cs) (cs : Cs) (k : Cs → Cs → Option α) : Option α :=
  match cs with
  | [] => k acc []
  | c :: rest =>
    if p c then (clsStar p (acc ++ [c]) rest k).orElse (fun _ => k acc (c :: rest))
    else k acc (c :: rest)

/-- Greedy bounded repetition of a character class (regex brace quantifier),
capturing the consumed characters; longest alternative first, backtracking down
to the lower bound. -/
def clsRep (p : Char → Bool) (lo hi : Nat) (acc : Cs) (cs : Cs) (k : Cs → Cs → Option α) :
    Option α :=
  match hi, cs with
  | hi' + 1, c :: rest =>
    if p c then
      (clsRep p (lo - 1) hi' (acc ++ [c]) rest k).orElse
        (fun _ => if lo = 0 then k acc (c :: rest) else none)
    else if lo = 0 then k acc (c :: rest) else none
  | _, _ => if lo = 0 then k acc cs else none

/-- Lazy one-or-more repetition of the dot class (any character except newline):
shortest match first, extending on failure.  Used by the reason patterns. -/
def dotPlusLazy (acc : Cs) (cs : Cs) (k : Cs → Cs → Option α) : Option α :=
  match cs with
  | [] => none
  | c :: rest =>
    if c = '\n' then none
    else (k (acc ++ [c]) rest).orElse (fun _ => dotPlusLazy (acc ++ [c]) rest k)

/-- re.search: try the matcher at every start position, leftmost first.  The
matcher returns its captures together with the input remaining after the match. -/
def reSearch (m : Cs → Option (γ × Cs)) : Cs → Option (γ × Cs)
  | [] => m []
  | c :: rest => (m (c :: rest)).orElse (fun _ => reSearch m rest)

/-- re.findall: all non-overlapping matches, scanning left to right and resuming
after each match.  Fuel bounds the recursion; every pattern in scope consumes at
least one character per match, so fuel equal to the input length suffices. -/
def reFindAllAux (m : Cs → Option (γ × Cs)) : Nat → Cs → List γ
  | 0, _ => []
  | _, [] => []
  | fuel + 1, c :: rest =>
    match m (c :: rest) with
    | some (g, after) => g :: reFindAllAux m fuel after
    | none => reFindAllAux m fuel rest

/-- re.findall entry point. -/
def reFindAll (m : Cs → Option (γ × Cs)) (cs : Cs) : List γ :=
  reFindAllAux m (cs.length + 1) cs

/-- re.sub with a fixed replacement: scan left to right, replacing each
non-overlapping match.  Same fuel discipline as reFindAll. -/
def reSubAux (m : Cs → Option (Unit × Cs)) (rep : Cs) : Nat → Cs → Cs
  | 0, cs => cs
  | _, [] => []
  | fuel + 1, c :: rest =>
    match m (c :: rest) with
    | some (_, after) => rep ++ reSubAux m rep fuel after
    | none => c :: reSubAux m rep fuel rest

/-- re.sub entry point. -/
def reSub (m : Cs → Option (Unit × Cs)) (rep : Cs) (cs : Cs) : Cs :=
  reSubAux m rep (cs.length + 1) cs

/-- Substring containment: the semantics of re.search for a pattern that is a
plain escaped literal. -/
def containsSub (needle hay : Cs) : Bool :=
  (reSearch (fun cs => (litAt needle cs).map (fun r => ((), r))) hay).isSome

/-- Python str.strip(): drop whitespace from both ends. -/
def pyStrip (cs : Cs) : Cs :=
  ((cs.dropWhile isWs).reverse.dropWhile isWs).reverse

/-- Decimal value of a list of ASCII digits (Python int() on a digits-only capture). -/
def toNatD (cs : Cs) : Nat :=
  cs.foldl (fun a c => a * 10 + (c.toNat - 48)) 0

/-! ## Classifier (src/src/mail/email_classifier.py) -/

/-- EmailCategory. -/
inductive EmailCategory where
  | VACATION
  | ATTENDANCE
  | UNKNOWN
deriving DecidableEq, Repr

/-- AttendanceSubType. -/
inductive AttendanceSubType where
  | LATE_ARRIVAL
  | OUTING
  | EARLY_LEAVE
  | UNKNOWN
deriving DecidableEq, Repr

/-- ClassificationResult.  Confidence is a rational; the Python floats in scope
(0.0, 0.5, 0.9, 1.0) are all exactly representable. -/
structure ClassificationResult where
  category : EmailCategory
  subType : Option AttendanceSubType
  confidence : ℚ
deriving DecidableEq, Repr

/-- A body pattern of the classifier: either a plain literal or two literals
separated by optional whitespace (the only regex shapes the classifier uses).
re.IGNORECASE on these patterns is a no-op: Hangul has no case. -/
inductive LitPat where
  | one (s : Cs)
  | two (a b : Cs)

/-- Matcher for a classifier body pattern. -/
def litPatAt : LitPat → Cs → Option (Unit × Cs)
  | .one s, cs => (litAt s cs).map (fun r => ((), r))
  | .two a b, cs =>
    litC a cs fun r1 =>
    clsStar isWs [] r1 fun _ r2 =>
    (litAt b r2).map (fun r => ((), r))

/-- re.search for a classifier body pattern. -/
def litPatFound (p : LitPat) (body : Cs) : Bool :=
  (reSearch (litPatAt p) body).isSome

/-- EXCLUDED_PATTERNS. -/
def EXCLUDED_PATTERNS : List LitPat :=
  [ .two "당직".toList "휴식".toList
  , .one "당직휴식".toList
  , .two "전일".toList "야근".toList
  , .one "전일야근".toList ]

/-- SUBTYPE_PATTERNS, in source (insertion) order. -/
def SUBTYPE_PATTERNS : List (AttendanceSubType × List LitPat) :=
  [ (.LATE_ARRIVAL,
      [ .two "출근".toList "지연".toList
      , .one "지각".toList
      , .two "늦은".toList "출근".toList
      , .one "출근지연".toList ])
  , (.OUTING,
      [ .one "외출".toList
      , .one "외근".toList
      , .two "자리".toList "비움".toList ])
  , (.EARLY_LEAVE,
      [ .two "조기".toList "퇴근".toList
      , .one "조퇴".toList
      , .two "일찍".toList "퇴근".toList
      , .one "조기퇴근".toList ]) ]

/-- EmailClassifier._is_excluded_type. -/
def isExcludedType (body : Cs) : Bool :=
  EXCLUDED_PATTERNS.any (fun p => litPatFound p body)

/-- EmailClassifier._classify_attendance_subtype. -/
def classifyAttendanceSubtype (body : Cs) : AttendanceSubType :=
  match SUBTYPE_PATTERNS.findSome?
      (fun st => if st.2.any (fun p => litPatFound p body) then some st.1 else none) with
  | some st => st
  | none => .UNKNOWN

/-- The subject marker of vacation reports; the pattern escapes the brackets, so
re.search is substring containment. -/
def VACATION_TAG : Cs := "[휴가신고]".toList

/-- The subject marker of attendance shares. -/
def ATTENDANCE_TAG : Cs := "[근태공유]".toList

/-- EmailClassifier.classify. -/
def classify (subject body : Cs) : ClassificationResult :=
  if containsSub VACATION_TAG subject then
    ⟨.VACATION, none, 1⟩
  else if containsSub ATTENDANCE_TAG subject then
    if isExcludedType body then
      ⟨.UNKNOWN, none, 0⟩
    else
      let st := classifyAttendanceSubtype body
      ⟨.ATTENDANCE, some st, if st ≠ .UNKNOWN then 9/10 else 1/2⟩
  else
    ⟨.UNKNOWN, none, 0⟩

/-! ## Dates (the subset of datetime.date the parser uses) -/

/-- datetime.date: a year/month/day triple. -/
structure PyDate where
  year : Nat
  month : Nat
  day : Nat
deriving DecidableEq, Repr

/-- Gregorian leap year, as datetime implements it. -/
def isLeap (y : Nat) : Bool := (y % 4 = 0 && y % 100 ≠ 0) || y % 400 = 0

/-- Days in a month, as datetime implements it. -/
def daysInMonth (y m : Nat) : Nat :=
  if m = 2 then (if isLeap y then 29 else 28)
  else if m = 4 ∨ m = 6 ∨ m = 9 ∨ m = 11 then 30
  else 31

/-- Field validity of a date, excluding the year range (month and day in range
for the month). -/
def PyDate.okFields (d : PyDate) : Prop :=
  1 ≤ d.month ∧ d.month ≤ 12 ∧ 1 ≤ d.day ∧ d.day ≤ daysInMonth d.year d.month

instance (d : PyDate) : Decidable d.okFields := by
  unfold PyDate.okFields; infer_instance

/-- The datetime.date constructor: raises ValueError (here: none) unless the year
is in 1..9999 and month/day are in range. -/
def mkDate (y m d : Nat) : Option PyDate :=
  if 1 ≤ y ∧ y ≤ 9999 ∧ (PyDate.mk y m d).okFields then some ⟨y, m, d⟩ else none

/-- Numeric key realising datetime.date's comparison: for dates with in-range
fields (month below 100, day below 100) the key order is exactly the
lexicographic (year, month, day) order Python uses. -/
def PyDate.key (d : PyDate) : Nat := d.year * 10000 + d.month * 100 + d.day

/-- EmailParser._next_day, i.e. the date plus one calendar day.  Python's
timedelta addition raises OverflowError past 9999-12-31; under the parser's
own plausibility filter (year within one of the wall-clock year) that overflow
is unreachable for any run started before the year 9998, and the embedding
treats the successor as total. -/
def PyDate.nextDay (d : PyDate) : PyDate :=
  if d.day < daysInMonth d.year d.month then ⟨d.year, d.month, d.day + 1⟩
  else if d.month < 12 then ⟨d.year, d.month + 1, 1⟩
  else ⟨d.year + 1, 1, 1⟩

/-- Python strftime zero-padding to two digits (months, days). -/
def pad2 (n : Nat) : Cs :=
  [Char.ofNat (48 + n / 10 % 10), Char.ofNat (48 + n % 10)]

/-- Python strftime %Y-%m-%d for the years in scope (four-digit year). -/
def fmtYmd (d : PyDate) : Cs :=
  [Char.ofNat (48 + d.year / 1000 % 10), Char.ofNat (48 + d.year / 100 % 10),
   Char.ofNat (48 + d.year / 10 % 10), Char.ofNat (48 + d.year % 10)] ++
  ('-' :: pad2 d.month) ++ ('-' :: pad2 d.day)

/-! ## Parser: date extraction (src/src/mail/email_parser.py) -/

/-- Class of the separators accepted after the year group. -/
def isYSep (c : Char) : Bool := c = '년' || c = '.' || c = '-' || c = '/'

/-- Class of the separators accepted after the month group. -/
def isMSep (c : Char) : Bool := c = '월' || c = '.' || c = '-' || c = '/'

/-- Class of range separators (tilde or hyphen). -/
def isTilde (c : Char) : Bool := c = '~' || c = '-'

/-- Core of the generic full-date pattern: four year digits, optional year
separator, whitespace, one or two month digits, optional month separator,
whitespace, one or two day digits, optional day marker.  The continuation
receives the three digit groups, the whole consumed text, and the rest. -/
def ymdCore (cs : Cs) (k : Cs → Cs → Cs → Cs → Cs → Option α) : Option α :=
  clsRep isDig 4 4 [] cs fun g1 r1 =>
  clsOpt isYSep r1 fun s1 r2 =>
  clsStar isWs [] r2 fun w1 r3 =>
  clsRep isDig 1 2 [] r3 fun g2 r4 =>
  clsOpt isMSep r4 fun s2 r5 =>
  clsStar isWs [] r5 fun w2 r6 =>
  clsRep isDig 1 2 [] r6 fun g3 r7 =>
  clsOpt (fun c => c = '일') r7 fun s3 r8 =>
  k g1 g2 g3 (g1 ++ s1 ++ w1 ++ g2 ++ s2 ++ w2 ++ g3 ++ s3) r8

/-- DATE_RANGE_PATTERN: full date, whitespace, tilde or hyphen, whitespace,
full date; captures the two full-date substrings. -/
def rangeAt (cs : Cs) : Option ((Cs × Cs) × Cs) :=
  ymdCore cs fun _ _ _ whole1 r1 =>
  clsStar isWs [] r1 fun _ r2 =>
  clsOne isTilde r2 fun _ r3 =>
  clsStar isWs [] r3 fun _ r4 =>
  ymdCore r4 fun _ _ _ whole2 r5 =>
  some ((whole1, whole2), r5)

/-- DATE_PATTERNS[0]: spaced Korean form with literal year/month/day markers. -/
def fam1At (cs : Cs) : Option ((Cs × Cs × Cs) × Cs) :=
  clsRep isDig 4 4 [] cs fun g1 r1 =>
  clsStar isWs [] r1 fun _ r2 =>
  litC "년".toList r2 fun r3 =>
  clsStar isWs [] r3 fun _ r4 =>
  clsRep isDig 1 2 [] r4 fun g2 r5 =>
  clsStar isWs [] r5 fun _ r6 =>
  litC "월".toList r6 fun r7 =>
  clsStar isWs [] r7 fun _ r8 =>
  clsRep isDig 1 2 [] r8 fun g3 r9 =>
  clsStar isWs [] r9 fun _ r10 =>
  litC "일".toList r10 fun r11 =>
  some ((g1, g2, g3), r11)

/-- DATE_PATTERNS[1]: the generic year-month-day form. -/
def fam2At (cs : Cs) : Option ((Cs × Cs × Cs) × Cs) :=
  ymdCore cs fun g1 g2 g3 _ r => some ((g1, g2, g3), r)

/-- DATE_PATTERNS[2]: month-day-only form. -/
def fam3At (cs : Cs) : Option ((Cs × Cs) × Cs) :=
  clsRep isDig 1 2 [] cs fun g1 r1 =>
  clsOne isMSep r1 fun _ r2 =>
  clsStar isWs [] r2 fun _ r3 =>
  clsRep isDig 1 2 [] r3 fun g2 r4 =>
  clsOpt (fun c => c = '일') r4 fun _ r5 =>
  some ((g1, g2), r5)

/-- The phone-number pattern removed before date scanning. -/
def phoneAt (cs : Cs) : Option (Unit × Cs) :=
  clsOne (fun c => c = '0') cs fun _ r1 =>
  clsRep isDig 2 2 [] r1 fun _ r2 =>
  clsOpt (fun c => c = '-' || c = '.' || isWs c) r2 fun _ r3 =>
  clsRep isDig 3 4 [] r3 fun _ r4 =>
  clsOpt (fun c => c = '-' || c = '.' || isWs c) r4 fun _ r5 =>
  clsRep isDig 4 4 [] r5 fun _ r6 =>
  some ((), r6)

/-- The phone-number strip applied to the body before any date matching. -/
def cleanBody (body : Cs) : Cs := reSub phoneAt [] body

/-- EmailParser._is_reasonable_date: year within one of the current year. -/
def isReasonable (d : PyDate) (cy : Nat) : Bool :=
  ((d.year : ℤ) - (cy : ℤ)).natAbs ≤ 1

/-- First regex of EmailParser._parse_single_date (year-month-day, no trailing
day marker required). -/
def psdAAt (cs : Cs) : Option ((Cs × Cs × Cs) × Cs) :=
  clsRep isDig 4 4 [] cs fun g1 r1 =>
  clsOpt isYSep r1 fun _ r2 =>
  clsStar isWs [] r2 fun _ r3 =>
  clsRep isDig 1 2 [] r3 fun g2 r4 =>
  clsOpt isMSep r4 fun _ r5 =>
  clsStar isWs [] r5 fun _ r6 =>
  clsRep isDig 1 2 [] r6 fun g3 r7 =>
  some ((g1, g2, g3), r7)

/-- Second regex of EmailParser._parse_single_date (month-day). -/
def psdBAt (cs : Cs) : Option ((Cs × Cs) × Cs) :=
  clsRep isDig 1 2 [] cs fun g1 r1 =>
  clsOne isMSep r1 fun _ r2 =>
  clsStar isWs [] r2 fun _ r3 =>
  clsRep isDig 1 2 [] r3 fun g2 r4 =>
  some ((g1, g2), r4)

/-- EmailParser._parse_single_date: year-month-day first, then month-day with the
default year; an invalid date (ValueError) falls through to the next attempt. -/
def parseSingleDate (ds : Cs) (defaultYear : Nat) : Option PyDate :=
  match reSearch psdAAt ds with
  | some ((g1, g2, g3), _) =>
    match mkDate (toNatD g1) (toNatD g2) (toNatD g3) with
    | some d => some d
    | none => parseSingleDateB ds defaultYear
  | none => parseSingleDateB ds defaultYear
where
  parseSingleDateB (ds : Cs) (defaultYear : Nat) : Option PyDate :=
    match reSearch psdBAt ds with
    | some ((g1, g2), _) => mkDate defaultYear (toNatD g1) (toNatD g2)
    | none => none

/-- The date-range materialisation loop: collect days while the current day is at
most the end date, at most 30 of them, stepping by _next_day. -/
def rangeDays (e : PyDate) : Nat → PyDate → List PyDate
  | 0, _ => []
  | fuel + 1, cur =>
    if cur.key ≤ e.key then cur :: rangeDays e fuel cur.nextDay else []

/-- Conversion step of the loop body for the two year-month-day families: the
year must be within one of the current year, the date must construct (else
ValueError is caught and the scan continues), and it must be reasonable. -/
def tripleToDate (cy : Nat) (g : Cs × Cs × Cs) : Option PyDate :=
  if ((toNatD g.1 : ℤ) - (cy : ℤ)).natAbs > 1 then none
  else
    match mkDate (toNatD g.1) (toNatD g.2.1) (toNatD g.2.2) with
    | some d => if isReasonable d cy then some d else none
    | none => none

/-- Conversion step for the month-day family: month and day range-checked, the
current year assumed, construction failures skipped. -/
def pairToDate (cy : Nat) (g : Cs × Cs) : Option PyDate :=
  if 1 ≤ toNatD g.1 ∧ toNatD g.1 ≤ 12 ∧ 1 ≤ toNatD g.2 ∧ toNatD g.2 ≤ 31 then
    match mkDate cy (toNatD g.1) (toNatD g.2) with
    | some d => if isReasonable d cy then some d else none
    | none => none
  else none

/-- Python sorted(set(l)): the ascending duplicate-free enumeration of l. -/
def pySortedSet (l : List PyDate) : List PyDate :=
  List.insertionSort (fun a b => a.key ≤ b.key) l.dedup

/-- EmailParser._extract_dates.  The current year (datetime.now().year) is passed
explicitly. -/
def extractDates (cy : Nat) (body : Cs) : List PyDate :=
  let clean := cleanBody body
  let fromRange : List PyDate :=
    match reSearch rangeAt clean with
    | some ((g1, g2), _) =>
      match parseSingleDate g1 cy, parseSingleDate g2 cy with
      | some s, some e =>
        if isReasonable s cy && isReasonable e cy then rangeDays e 30 s else []
      | _, _ => []
    | none => []
  let dates : List PyDate :=
    if fromRange.isEmpty then
      match (reFindAll fam1At clean).findSome? (tripleToDate cy) with
      | some d => [d]
      | none =>
        match (reFindAll fam2At clean).findSome? (tripleToDate cy) with
        | some d => [d]
        | none =>
          match (reFindAll fam3At clean).findSome? (pairToDate cy) with
          | some d => [d]
          | none => []
    else fromRange
  if dates.isEmpty then [] else pySortedSet dates

/-! ## Parser: time-range extraction -/

/-- Exceptions that can escape the embedded code paths. -/
inductive PyErr where
  | valueError
  | apiError
deriving DecidableEq, Repr

/-- datetime.time: validated hour/minute pair. -/
structure PyTime where
  hour : Nat
  minute : Nat
deriving DecidableEq, Repr

/-- The datetime.time constructor: ValueError unless hour in 0..23 and minute in
0..59 (the lower bounds are automatic over Nat). -/
def mkTime (h m : Nat) : Except PyErr PyTime :=
  if h ≤ 23 ∧ m ≤ 59 then .ok ⟨h, m⟩ else .error .valueError

/-- TIME_PATTERNS[0]: hour marker (시 or colon), optional minutes with optional
minute marker, range separator, and the same again. -/
def tp1At (cs : Cs) : Option ((Cs × Cs × Cs × Cs) × Cs) :=
  clsRep isDig 1 2 [] cs fun g1 r1 =>
  clsOne (fun c => c = '시' || c = ':') r1 fun _ r1b =>
  clsStar isWs [] r1b fun _ r2 =>
  clsRep isDig 0 2 [] r2 fun g2 r3 =>
  clsOpt (fun c => c = '분') r3 fun _ r4 =>
  clsStar isWs [] r4 fun _ r5 =>
  clsOne isTilde r5 fun _ r6 =>
  clsStar isWs [] r6 fun _ r7 =>
  clsRep isDig 1 2 [] r7 fun g3 r8 =>
  clsOne (fun c => c = '시' || c = ':') r8 fun _ r8b =>
  clsStar isWs [] r8b fun _ r9 =>
  clsRep isDig 0 2 [] r9 fun g4 r10 =>
  clsOpt (fun c => c = '분') r10 fun _ r11 =>
  some ((g1, g2, g3, g4), r11)

/-- TIME_PATTERNS[1]: strict colon form with two-digit minutes. -/
def tp2At (cs : Cs) : Option ((Cs × Cs × Cs × Cs) × Cs) :=
  clsRep isDig 1 2 [] cs fun g1 r1 =>
  clsOne (fun c => c = ':') r1 fun _ r2 =>
  clsRep isDig 2 2 [] r2 fun g2 r3 =>
  clsStar isWs [] r3 fun _ r4 =>
  clsOne isTilde r4 fun _ r5 =>
  clsStar isWs [] r5 fun _ r6 =>
  clsRep isDig 1 2 [] r6 fun g3 r7 =>
  clsOne (fun c => c = ':') r7 fun _ r8 =>
  clsRep isDig 2 2 [] r8 fun g4 r9 =>
  some ((g1, g2, g3, g4), r9)

/-- Ordered alternation of the two meridiem words, capturing the matched one. -/
def meridiemAt (cs : Cs) (k : Cs → Cs → Option α) : Option α :=
  match litAt "오전".toList cs with
  | some r => k "오전".toList r
  | none =>
    match litAt "오후".toList cs with
    | some r => k "오후".toList r
    | none => none

/-- TIME_PATTERNS[2]: the AM/PM-worded form. -/
def tp3At (cs : Cs) : Option ((Cs × Cs × Cs × Cs) × Cs) :=
  meridiemAt cs fun a1 r1 =>
  clsStar isWs [] r1 fun _ r2 =>
  clsRep isDig 1 2 [] r2 fun h1 r3 =>
  clsOne (fun c => c = '시') r3 fun _ r4 =>
  clsStar isWs [] r4 fun _ r5 =>
  clsOne isTilde r5 fun _ r6 =>
  clsStar isWs [] r6 fun _ r7 =>
  meridiemAt r7 fun a2 r8 =>
  clsStar isWs [] r8 fun _ r9 =>
  clsRep isDig 1 2 [] r9 fun h2 r10 =>
  clsOne (fun c => c = '시') r10 fun _ r11 =>
  some ((a1, h1, a2, h2), r11)

/-- The numeric branch of _extract_time_range for one matched pattern: empty
minute captures default to zero, hours outside 0..23 fall through to the next
pattern, and a ValueError from the time constructor (minutes out of range) is
caught and also falls through. -/
def numericFam (g1 g2 g3 g4 : Cs) : Option (PyTime × PyTime) :=
  let sh := toNatD g1
  let sm := if g2.isEmpty then 0 else toNatD g2
  let eh := toNatD g3
  let em := if g4.isEmpty then 0 else toNatD g4
  if sh ≤ 23 ∧ eh ≤ 23 then
    match mkTime sh sm, mkTime eh em with
    | .ok t1, .ok t2 => some (t1, t2)
    | _, _ => none
  else none

/-- The meridiem branch of _extract_time_range: the PM word adds twelve except
for hour 12, and the time constructor is called OUTSIDE any try/except, so its
ValueError propagates out of the extractor. -/
def meridiemFam (a1 h1 a2 h2 : Cs) : Except PyErr (Option (PyTime × PyTime)) :=
  let sh0 := toNatD h1
  let sh := if a1 = "오후".toList ∧ sh0 ≠ 12 then sh0 + 12 else sh0
  let eh0 := toNatD h2
  let eh := if a2 = "오후".toList ∧ eh0 ≠ 12 then eh0 + 12 else eh0
  match mkTime sh 0 with
  | .error e => .error e
  | .ok t1 =>
    match mkTime eh 0 with
    | .error e => .error e
    | .ok t2 => .ok (some (t1, t2))

/-- Third stage of the pattern scan (the meridiem family); no match yields none. -/
def etrFam3 (body : Cs) : Except PyErr (Option (PyTime × PyTime)) :=
  match reSearch tp3At body with
  | some ((a1, h1, a2, h2), _) => meridiemFam a1 h1 a2 h2
  | none => .ok none

/-- Second stage of the pattern scan (the strict colon family). -/
def etrFam2 (body : Cs) : Except PyErr (Option (PyTime × PyTime)) :=
  match reSearch tp2At body with
  | some ((g1, g2, g3, g4), _) =>
    match numericFam g1 g2 g3 g4 with
    | some r => .ok (some r)
    | none => etrFam3 body
  | none => etrFam3 body

/-- EmailParser._extract_time_range.  Only the first match of each pattern is
considered; a rejected candidate moves the scan to the NEXT pattern. -/
def extractTimeRange (body : Cs) : Except PyErr (Option (PyTime × PyTime)) :=
  match reSearch tp1At body with
  | some ((g1, g2, g3, g4), _) =>
    match numericFam g1 g2 g3 g4 with
    | some r => .ok (some r)
    | none => etrFam2 body
  | none => etrFam2 body

/-! ## Parser: applicant, reason, vacation type and days -/

/-- A labelled-capture pattern: literal label (or two label parts separated by
whitespace), optional whitespace, optional colon or hyphen, optional whitespace,
then a captured repetition of a character class. -/
def labelCapAt (lbl1 lbl2 : Cs) (p : Char → Bool) (lo hi : Nat) (cs : Cs) :
    Option (Cs × Cs) :=
  litC lbl1 cs fun r0 =>
  clsStar isWs [] r0 fun _ r0b =>
  litC lbl2 r0b fun r1 =>
  clsStar isWs [] r1 fun _ r2 =>
  clsOpt (fun c => c = ':' || c = '-') r2 fun _ r3 =>
  clsStar isWs [] r3 fun _ r4 =>
  clsRep p lo (if hi = 0 then r4.length else hi) [] r4 fun g r5 =>
  some (g, r5)

/-- APPLICANT_PATTERNS in source order: Latin capture for the reporter and
applicant labels first, then Hangul captures for the various name labels. -/
def applicantSearch (body : Cs) : Option Cs :=
  let pats : List (Cs → Option (Cs × Cs)) :=
    [ labelCapAt "신고자".toList [] isLatin 1 0
    , labelCapAt "신청자".toList [] isLatin 1 0
    , labelCapAt "신고자".toList [] isHangul 2 4
    , labelCapAt "신청자".toList [] isHangul 2 4
    , labelCapAt "성명".toList [] isHangul 2 4
    , labelCapAt "이름".toList [] isHangul 2 4
    , labelCapAt "작성자".toList [] isHangul 2 4
    , labelCapAt "성".toList "명".toList isHangul 2 4 ]
  pats.findSome? (fun m => (reSearch m body).map (fun r => r.1))

/-- The leading-Hangul-run anchored match used on the sender display name. -/
def leadHangul (s : Cs) : Option Cs :=
  match s with
  | [] => none
  | c :: _ => if isHangul c then some (s.takeWhile isHangul) else none

/-- Python sender_name.split on the angle bracket, first component. -/
def takeBeforeLt (s : Cs) : Cs := s.takeWhile (fun c => c ≠ '<')

/-- EmailParser._extract_applicant. -/
def extractApplicant (body sender : Cs) : Cs :=
  match applicantSearch body with
  | some nm => pyStrip nm
  | none =>
    if sender ≠ [] then
      match leadHangul sender with
      | some run => run
      | none => pyStrip (takeBeforeLt sender)
    else "미상".toList

/-- One reason pattern: label (possibly two whitespace-separated parts), optional
whitespace and colon/hyphen, then the lazy remainder-of-line capture terminated
by a newline or the end of input. -/
def reasonAt (lbl1 lbl2 : Cs) (cs : Cs) : Option (Cs × Cs) :=
  litC lbl1 cs fun r0 =>
  clsStar isWs [] r0 fun _ r0b =>
  litC lbl2 r0b fun r1 =>
  clsStar isWs [] r1 fun _ r2 =>
  clsOpt (fun c => c = ':' || c = '-') r2 fun _ r3 =>
  clsStar isWs [] r3 fun _ r4 =>
  dotPlusLazy [] r4 fun g r5 =>
  match r5 with
  | [] => some (g, r5)
  | c :: _ => if c = '\n' then some (g, r5) else none

/-- EmailParser._extract_reason: first matching label wins, the captured text is
stripped and truncated to 200 characters with an ellipsis; the default sentinel
is returned when no label matches. -/
def extractReason (body : Cs) : Cs :=
  let pats : List (Cs → Option (Cs × Cs)) :=
    [ reasonAt "사유".toList []
    , reasonAt "내용".toList []
    , reasonAt "비고".toList []
    , reasonAt "사".toList "유".toList ]
  match pats.findSome? (fun m => (reSearch m body).map (fun r => r.1)) with
  | some raw =>
    let reason := pyStrip raw
    if reason.length > 200 then reason.take 200 ++ "...".toList else reason
  | none => "사유 미기재".toList

/-- The vacation-type vocabulary, in the alternation order of the source. -/
def VACATION_TYPE_WORDS : List Cs :=
  ["연차".toList, "반차".toList, "오전반차".toList, "오후반차".toList,
   "반반차".toList, "병가".toList, "경조사".toList, "공가".toList,
   "특별휴가".toList, "연차휴가".toList, "반차휴가".toList]

/-- Matcher for the vocabulary alternation at one position. -/
def vtAltAt (cs : Cs) : Option (Cs × Cs) :=
  VACATION_TYPE_WORDS.findSome? (fun w => (litAt w cs).map (fun r => (w, r)))

/-- Matcher for the labelled vacation-type patterns (with or without internal
whitespace in the label), capturing a non-space run. -/
def vtLblAt (lbl : Cs) (spaced : Bool) (cs : Cs) : Option (Cs × Cs) :=
  litC "휴가".toList cs fun r0 =>
  (if spaced then clsStar isWs [] r0 else fun k => k [] r0) fun _ r1 =>
  litC lbl r1 fun r2 =>
  clsStar isWs [] r2 fun _ r3 =>
  clsOpt (fun c => c = ':' || c = '-') r3 fun _ r4 =>
  clsStar isWs [] r4 fun _ r5 =>
  clsRep (fun c => !isWs c) 1 r5.length [] r5 fun g r6 =>
  some (g, r6)

/-- EmailParser._extract_vacation_type. -/
def extractVacationType (t : Cs) : Option Cs :=
  let pats : List (Cs → Option (Cs × Cs)) :=
    [ vtAltAt
    , vtLblAt "종류".toList true
    , vtLblAt "종류".toList false ]
  (pats.findSome? (fun m => (reSearch m t).map (fun r => r.1))).map pyStrip

/-- A decimal-number capture: one or more digits with an optional fractional
part, which a later float() call reads back; the values in scope are exact in ℚ. -/
def numCapAt (cs : Cs) (k : Cs → Cs → Option α) : Option α :=
  clsRep isDig 1 cs.length [] cs fun ip r1 =>
  ((clsOne (fun c => c = '.') r1 fun dot r2 =>
      clsRep isDig 1 r2.length [] r2 fun fp r3 =>
      k (ip ++ dot ++ fp) r3)).orElse
    (fun _ => k ip r1)

/-- Python float() on a captured decimal numeral, as an exact rational. -/
def parseDec (cs : Cs) : ℚ :=
  let ip := cs.takeWhile (fun c => c ≠ '.')
  let fp := (cs.dropWhile (fun c => c ≠ '.')).drop 1
  (toNatD ip : ℚ) + (toNatD fp : ℚ) / ((10 : ℚ) ^ fp.length)

/-- The labelled vacation-days patterns: label text, optional colon/hyphen, the
number, then the day unit. -/
def vdLblAt (lbl1 lbl2 : Cs) (cs : Cs) : Option (Cs × Cs) :=
  litC lbl1 cs fun r0 =>
  clsStar isWs [] r0 fun _ r0b =>
  litC lbl2 r0b fun r1 =>
  clsStar isWs [] r1 fun _ r2 =>
  clsOpt (fun c => c = ':' || c = '-') r2 fun _ r3 =>
  clsStar isWs [] r3 fun _ r4 =>
  numCapAt r4 fun g r5 =>
  clsStar isWs [] r5 fun _ r6 =>
  litC "일".toList r6 fun r7 =>
  some (g, r7)

/-- The fifth vacation-days pattern: number, day unit, then one of the verbs. -/
def vdVerbAt (cs : Cs) : Option (Cs × Cs) :=
  numCapAt cs fun g r1 =>
  clsStar isWs [] r1 fun _ r2 =>
  litC "일".toList r2 fun r3 =>
  clsStar isWs [] r3 fun _ r4 =>
  match litAt "사용".toList r4 with
  | some r5 => some (g, r5)
  | none =>
    match litAt "신청".toList r4 with
    | some r5 => some (g, r5)
    | none => (litAt "휴가".toList r4).map (fun r5 => (g, r5))

/-- The sixth vacation-days pattern: the total marker, number, day unit. -/
def vdTotalAt (cs : Cs) : Option (Cs × Cs) :=
  litC "총".toList cs fun r0 =>
  clsStar isWs [] r0 fun _ r1 =>
  numCapAt r1 fun g r2 =>
  clsStar isWs [] r2 fun _ r3 =>
  litC "일".toList r3 fun r4 =>
  some (g, r4)

/-- EmailParser._extract_vacation_days: the first pattern that matches AND whose
value lies in 0.25..30 wins; an out-of-range value moves on to the next pattern. -/
def extractVacationDays (body : Cs) : Option ℚ :=
  let pats : List (Cs → Option (Cs × Cs)) :=
    [ vdLblAt "휴가".toList "일수".toList
    , vdLblAt "휴가일수".toList []
    , vdLblAt "일".toList "수".toList
    , vdLblAt "일수".toList []
    , vdVerbAt
    , vdTotalAt ]
  pats.findSome? (fun m =>
    match reSearch m body with
    | some (g, _) =>
      let days := parseDec g
      if 1/4 ≤ days ∧ days ≤ 30 then some days else none
    | none => none)

/-! ## Parser: parse -/

/-- ExtractedInfo. -/
structure ExtractedInfo where
  applicant : Cs
  dates : List PyDate
  reason : Cs
  timeRange : Option (PyTime × PyTime)
  vacationType : Option Cs
  vacationDays : Option ℚ
  rawText : Cs
deriving DecidableEq, Repr

/-- EmailParser.parse.  The vacation type is taken from the subject first, then
the body; a ValueError escaping _extract_time_range escapes parse (the other
extractors are total). -/
def parse (cy : Nat) (body senderName subject : Cs) : Except PyErr ExtractedInfo :=
  let vt := match extractVacationType subject with
    | some v => some v
    | none => extractVacationType body
  match extractTimeRange body with
  | .error e => .error e
  | .ok tr =>
    .ok { applicant := extractApplicant body senderName
        , dates := extractDates cy body
        , reason := extractReason body
        , timeRange := tr
        , vacationType := vt
        , vacationDays := extractVacationDays body
        , rawText := body }

/-- Projection of the parsed applicant (none when parse raised). -/
def parsedApplicant (cy : Nat) (body senderName subject : Cs) : Option Cs :=
  match parse cy body senderName subject with
  | .ok i => some i.applicant
  | .error _ => none

/-! ## Deduction arithmetic (src/src/main.py) -/

/-- Python int() truncation toward zero on a rational. -/
def pyInt (q : ℚ) : ℤ := if q < 0 then ⌈q⌉ else ⌊q⌋

/-- _calculate_deduction_days.  Python runs this in binary floating point; every
value that occurs is an integer multiple of a quarter, on which binary floating
point is exact, so the rational model is faithful.  The Python floor division is
Int.fdiv. -/
def calcDeductionDays (totalMinutes : ℤ) : ℚ :=
  if totalMinutes < 120 then 0
  else ((totalMinutes.fdiv 120 : ℤ) : ℚ) * (1/4)

/-- _calculate_deducted_minutes. -/
def calcDeductedMinutes (deductionDays : ℚ) : ℤ :=
  pyInt (deductionDays / (1/4)) * 120

/-! ## Deduction-history ingestion (fetch_previous_deductions) -/

/-- One collected history record: the dict entries appended per employee name,
flattened (name, date string, minutes); grouping by name preserves exactly the
per-name lists the source builds. -/
structure DeductionEntry where
  name : Cs
  date : Cs
  minutes : Nat
deriving DecidableEq, Repr

/-- A message of the notification-history folder as the ingestion loop sees it:
subject, raw HTML body, and the optional received timestamp (already at day
granularity, since only its %Y-%m-%d rendering is used). -/
structure HistMsg where
  subject : Cs
  body : Cs
  receivedDate : Option PyDate
deriving Repr

/-- The subject filter literal of the ingestion loop. -/
def DEDUCTION_MARK : Cs := "휴가차감".toList

/-- The subject name pattern: the attendance tag, whitespace, a word-character
run, whitespace, an opening parenthesis; captures the name. -/
def histNameAt (cs : Cs) : Option (Cs × Cs) :=
  litC ATTENDANCE_TAG cs fun r1 =>
  clsStar isWs [] r1 fun _ r2 =>
  clsRep isWordCh 1 r2.length [] r2 fun nm r3 =>
  clsStar isWs [] r3 fun _ r4 =>
  clsOne (fun c => c = '(') r4 fun _ r5 =>
  some (nm, r5)

/-- The body minutes pattern: the time label, any run of colons/whitespace, a
digit run (captured), whitespace, the minutes unit. -/
def histTimeAt (cs : Cs) : Option (Cs × Cs) :=
  litC "시간".toList cs fun r1 =>
  clsStar (fun c => c = ':' || isWs c) [] r1 fun _ r2 =>
  clsRep isDig 1 r2.length [] r2 fun g r3 =>
  clsStar isWs [] r3 fun _ r4 =>
  litC "분".toList r4 fun r5 =>
  some (g, r5)

/-- The HTML-tag pattern replaced by a space before the minutes search. -/
def htmlTagAt (cs : Cs) : Option (Unit × Cs) :=
  clsOne (fun c => c = '<') cs fun _ r1 =>
  clsRep (fun c => c ≠ '>') 1 r1.length [] r1 fun _ r2 =>
  clsOne (fun c => c = '>') r2 fun _ r3 =>
  some ((), r3)

/-- The HTML strip applied to a history body. -/
def stripHtml (body : Cs) : Cs := reSub htmlTagAt [' '] body

/-- Per-message extraction of the ingestion loop: subject filter, subject name,
stripped-body minutes, and the received date rendered as %Y-%m-%d (falling back
to the wall-clock date string nowStr). -/
def extractHist (nowStr : Cs) (m : HistMsg) : Option DeductionEntry :=
  if containsSub DEDUCTION_MARK m.subject then
    match reSearch histNameAt m.subject with
    | some (nm, _) =>
      match reSearch histTimeAt (stripHtml m.body) with
      | some (g, _) =>
        some ⟨nm, (match m.receivedDate with | some d => fmtYmd d | none => nowStr),
              toNatD g⟩
      | none => none
    | none => none
  else none

/-- State of the ingestion loop: the seen (name, date) keys and the collected
entries, both append-only. -/
structure IngestState where
  seen : List (Cs × Cs)
  entries : List DeductionEntry

/-- One iteration of the ingestion loop: skip messages that fail the filter or
either pattern, skip duplicates of an already-seen key, otherwise record. -/
def histStep (nowStr : Cs) (st : IngestState) (m : HistMsg) : IngestState :=
  match extractHist nowStr m with
  | none => st
  | some e =>
    if (e.name, e.date) ∈ st.seen then st
    else ⟨st.seen ++ [(e.name, e.date)], st.entries ++ [e]⟩

/-- The ingestion loop over the folder messages (most-recent-first order is the
order of the input list). -/
def ingestHistory (nowStr : Cs) (msgs : List HistMsg) : List DeductionEntry :=
  (msgs.foldl (histStep nowStr) ⟨[], []⟩).entries

/-- fetch_previous_deductions: a missing folder id, a failed or empty folder
fetch all yield the empty history; otherwise the ingestion loop runs.  The
try/except around the whole body is modelled by the Except-valued response. -/
def fetchPreviousDeductions (nowStr : Cs) (folderId : Option Cs)
    (response : Except PyErr (Option (List HistMsg))) : List DeductionEntry :=
  match folderId with
  | none => []
  | some _ =>
    match response with
    | .error _ => []
    | .ok none => []
    | .ok (some msgs) => if msgs.isEmpty then [] else ingestHistory nowStr msgs

/-- previous_deductions.get(name, []) summed over its minutes: the
already-deducted total of one employee. -/
def alreadyDeducted (entries : List DeductionEntry) (nm : Cs) : Nat :=
  ((entries.filter (fun e => e.name = nm)).map (fun e => e.minutes)).sum

/-- The per-employee core of send_deduction_emails: remaining minutes are the
run total minus the already-deducted sum, and the new deduction days are
computed from the remaining minutes. -/
def deductionDaysFor (totalMinutes : Nat) (entries : List DeductionEntry) (nm : Cs) : ℚ :=
  calcDeductionDays ((totalMinutes : ℤ) - (alreadyDeducted entries nm : ℤ))

deriving instance DecidableEq for Except

/-! ## Per-message processing (_process_single_email) -/

/-- EmailMessage (mail/email_client.py); the received timestamp is kept opaque. -/
structure EmailMsg where
  id : Cs
  subject : Cs
  body : Cs
  senderName : Cs
  senderEmail : Cs
  receivedAt : Cs
deriving DecidableEq, Repr

/-- models/attendance.py AttendanceRecord. -/
structure AttendanceRecord where
  applicant : Cs
  subType : Option AttendanceSubType
  date : Option PyDate
  startTime : Option PyTime
  endTime : Option PyTime
  department : Option Cs
  reason : Cs
  emailReceivedAt : Cs
  emailId : Cs
  emailSubject : Cs
deriving DecidableEq, Repr

/-- models/vacation.py VacationRecord. -/
structure VacationRecord where
  applicant : Cs
  dates : List PyDate
  department : Option Cs
  vacationType : Option Cs
  vacationDays : Option ℚ
  reason : Cs
  emailReceivedAt : Cs
  emailId : Cs
  emailSubject : Cs
deriving DecidableEq, Repr

/-- An element of the unclassified bucket: either an attendance record with an
unknown subtype, or the raw summary dict appended for a non-target category. -/
inductive UnclassifiedItem where
  | record (r : AttendanceRecord)
  | raw (subject sender receivedAt : Cs)
deriving DecidableEq, Repr

/-- The category buckets of one run. -/
structure RunResults where
  vacations : List VacationRecord
  lateArrivals : List AttendanceRecord
  outings : List AttendanceRecord
  earlyLeaves : List AttendanceRecord
  unclassified : List UnclassifiedItem
deriving DecidableEq, Repr

/-- The empty buckets a run starts with. -/
def emptyResults : RunResults := ⟨[], [], [], [], []⟩

/-- The fallible prefix of _process_single_email's try block: classification
(total), extraction (may raise ValueError), and the department lookup (an
awaited service call, injected as an Except value). -/
def peChain (cy : Nat) (dept : Except PyErr (Option Cs)) (email : EmailMsg) :
    Except PyErr (ClassificationResult × ExtractedInfo × Option Cs) :=
  let classification := classify email.subject email.body
  match parse cy email.body email.senderName email.subject with
  | .error e => .error e
  | .ok extracted =>
    match dept with
    | .error e => .error e
    | .ok d => .ok (classification, extracted, d)

/-- _process_single_email: on success the message is routed into a bucket by
category and subtype; an exception anywhere in the try block is logged together
with the subject and the buckets are left unchanged. -/
def processSingleEmail (cy : Nat) (dept : Except PyErr (Option Cs)) (email : EmailMsg)
    (results : RunResults) (log : List (Cs × PyErr)) :
    RunResults × List (Cs × PyErr) :=
  match peChain cy dept email with
  | .error e => (results, log ++ [(email.subject, e)])
  | .ok (cl, ex, d) =>
    if cl.category = .VACATION then
      ({ results with vacations := results.vacations ++
          [⟨ex.applicant, ex.dates, d, ex.vacationType, ex.vacationDays, ex.reason,
            email.receivedAt, email.id, email.subject⟩] }, log)
    else if cl.category = .ATTENDANCE then
      let record : AttendanceRecord :=
        ⟨ex.applicant, cl.subType, ex.dates.head?,
         ex.timeRange.map (fun t => t.1), ex.timeRange.map (fun t => t.2),
         d, ex.reason, email.receivedAt, email.id, email.subject⟩
      if cl.subType = some .LATE_ARRIVAL then
        ({ results with lateArrivals := results.lateArrivals ++ [record] }, log)
      else if cl.subType = some .OUTING then
        ({ results with outings := results.outings ++ [record] }, log)
      else if cl.subType = some .EARLY_LEAVE then
        ({ results with earlyLeaves := results.earlyLeaves ++ [record] }, log)
      else
        ({ results with unclassified := results.unclassified ++ [.record record] }, log)
    else
      ({ results with unclassified := results.unclassified ++
          [.raw email.subject email.senderName email.receivedAt] }, log)

/-- The message loop of the run: every message is processed in turn, each with
its own department-lookup outcome. -/
def processEmails (cy : Nat) : List (EmailMsg × Except PyErr (Option Cs)) →
    RunResults → List (Cs × PyErr) → RunResults × List (Cs × PyErr)
  | [], results, log => (results, log)
  | (email, dept) :: rest, results, log =>
    let next := processSingleEmail cy dept email results log
    processEmails cy rest next.1 next.2

/-! ## Theorems -/

/-- C1.  For every employee, the deduction engine computes remaining minutes as
the run total minus the already-deducted history sum, and yields
floor(remaining/120) quarter days when remaining is at least 120 and zero
otherwise; with no history, 119 minutes give 0 days, 120 give 1/4, 239 give
1/4, 240 give 1/2, and any negative remaining gives 0. -/
theorem claim_c1 :
    (∀ (total : Nat) (entries : List DeductionEntry) (nm : Cs),
      deductionDaysFor total entries nm =
        if 120 ≤ (total : ℤ) - (alreadyDeducted entries nm : ℤ) then
          ((((total : ℤ) - (alreadyDeducted entries nm : ℤ)).fdiv 120 : ℤ) : ℚ) * (1/4)
        else 0)
    ∧ deductionDaysFor 119 [] [] = 0
    ∧ deductionDaysFor 120 [] [] = 1/4
    ∧ deductionDaysFor 239 [] [] = 1/4
    ∧ deductionDaysFor 240 [] [] = 1/2
    ∧ (∀ (total : Nat) (entries : List DeductionEntry) (nm : Cs),
        (total : ℤ) - (alreadyDeducted entries nm : ℤ) < 0 →
        deductionDaysFor total entries nm = 0) := by
  have main : ∀ (total : Nat) (entries : List DeductionEntry) (nm : Cs),
      deductionDaysFor total entries nm =
        if 120 ≤ (total : ℤ) - (alreadyDeducted entries nm : ℤ) then
          ((((total : ℤ) - (alreadyDeducted entries nm : ℤ)).fdiv 120 : ℤ) : ℚ) * (1/4)
        else 0 := by
    intro total entries nm
    unfold deductionDaysFor calcDeductionDays
    rcases lt_or_ge ((total : ℤ) - (alreadyDeducted entries nm : ℤ)) 120 with h | h
    · rw [if_pos h, if_neg (by omega)]
    · rw [if_neg (by omega), if_pos h]
  refine ⟨main, ?_, ?_, ?_, ?_, ?_⟩
  · rw [main 119 [] []]; norm_num [alreadyDeducted]
  · rw [main 120 [] []]; norm_num [alreadyDeducted]
  · rw [main 239 [] []]
    have h : Int.fdiv 239 120 = 1 := by decide
    norm_num [alreadyDeducted, h]
  · rw [main 240 [] []]
    have h : Int.fdiv 240 120 = 2 := by decide
    norm_num [alreadyDeducted, h]
  · intro total entries nm h
    rw [main total entries nm, if_neg (by omega)]

/-- Witness for C1: with 50 minutes of history and no new minutes the remaining
total is negative and the deduction is zero. -/
theorem claim_c1_witness :
    ((0 : ℕ) : ℤ) - (alreadyDeducted [⟨[], [], 50⟩] [] : ℤ) < 0 ∧
    deductionDaysFor 0 [⟨[], [], 50⟩] [] = 0 :=
  ⟨by decide, claim_c1.2.2.2.2.2 0 [⟨[], [], 50⟩] [] (by decide)⟩

/-- C9.  For every minute total of at least 120, recomputing minutes from the
deduction days reproduces the whole-block portion of the total:
calcDeductedMinutes (calcDeductionDays m) = (m div 120) * 120. -/
theorem claim_c9 : ∀ m : ℤ, 120 ≤ m →
    calcDeductedMinutes (calcDeductionDays m) = m.fdiv 120 * 120 := by
  intro m hm
  have hdays : calcDeductionDays m = ((m.fdiv 120 : ℤ) : ℚ) * (1/4) := by
    unfold calcDeductionDays
    rw [if_neg (by omega)]
  rw [hdays]
  unfold calcDeductedMinutes pyInt
  have hdiv : (((m.fdiv 120 : ℤ) : ℚ) * (1/4)) / (1/4) = ((m.fdiv 120 : ℤ) : ℚ) := by
    field_simp
  rw [hdiv]
  have hk0 : (0 : ℤ) ≤ m.fdiv 120 := Int.fdiv_nonneg (by omega) (by norm_num)
  have hneg : ¬ (((m.fdiv 120 : ℤ) : ℚ) < 0) := by
    rw [not_lt]
    exact_mod_cast hk0
  rw [if_neg hneg, Int.floor_intCast]

/-- Witness for C9: 250 minutes round-trip to the 240 whole-block minutes. -/
theorem claim_c9_witness :
    (120 ≤ (250 : ℤ)) ∧
    calcDeductedMinutes (calcDeductionDays 250) = (250 : ℤ).fdiv 120 * 120 ∧
    (250 : ℤ).fdiv 120 * 120 = 240 :=
  ⟨by decide, claim_c9 250 (by decide), by decide⟩

/-- C10.  A failed history fetch yields the empty history, on which every
employee's already-deducted sum is zero, so the subsequent deduction computation
runs on the bare run total. -/
theorem claim_c10 :
    (∀ (nowStr : Cs) (folderId : Option Cs) (e : PyErr),
      fetchPreviousDeductions nowStr folderId (.error e) = [])
    ∧ (∀ nm : Cs, alreadyDeducted [] nm = 0)
    ∧ (∀ (total : Nat) (nm : Cs),
        deductionDaysFor total [] nm = calcDeductionDays (total : ℤ)) := by
  refine ⟨?_, ?_, ?_⟩
  · intro nowStr folderId e
    cases folderId <;> rfl
  · intro nm; rfl
  · intro total nm
    unfold deductionDaysFor
    simp [alreadyDeducted]

/-- C4 (amended: the attendance branch is only reached when the vacation tag is
absent, the vacation tag taking precedence).  Under an attendance-tag subject
without a vacation tag, a body matching an excluded-activity pattern classifies
as UNKNOWN with no subtype and confidence zero. -/
theorem claim_c4 : ∀ subject body : Cs,
    containsSub ATTENDANCE_TAG subject = true →
    containsSub VACATION_TAG subject = false →
    isExcludedType body = true →
    classify subject body = ⟨.UNKNOWN, none, 0⟩ := by
  intro subject body h1 h2 h3
  unfold classify
  rw [h1, h2, h3]
  simp

/-- Witness for C4: an excluded-activity body that also matches the outing
subtype vocabulary still classifies as UNKNOWN. -/
theorem claim_c4_witness :
    containsSub ATTENDANCE_TAG "[근태공유] 홍길동".toList = true ∧
    containsSub VACATION_TAG "[근태공유] 홍길동".toList = false ∧
    isExcludedType "전일야근 후 당직휴식, 외출 예정".toList = true ∧
    classify "[근태공유] 홍길동".toList "전일야근 후 당직휴식, 외출 예정".toList =
      ⟨.UNKNOWN, none, 0⟩ :=
  ⟨by decide, by decide, by decide,
   claim_c4 _ _ (by decide) (by decide) (by decide)⟩

/-- Counterexample to C4 as stated: a subject containing BOTH markers contains
the attendance-tag marker, yet an excluded body classifies as VACATION with
confidence one, not as UNKNOWN with confidence zero. -/
theorem claim_c4_cex :
    containsSub ATTENDANCE_TAG "[휴가신고][근태공유] 홍길동".toList = true ∧
    isExcludedType "당직휴식 및 외출".toList = true ∧
    classify "[휴가신고][근태공유] 홍길동".toList "당직휴식 및 외출".toList =
      ⟨.VACATION, none, 1⟩ ∧
    (⟨.VACATION, none, 1⟩ : ClassificationResult) ≠ ⟨.UNKNOWN, none, 0⟩ := by
  refine ⟨by decide, by decide, by decide, by decide⟩

/-- C2 (amended: the failing message is logged with its subject and the run
continues, but the message is NOT added to the unclassified bucket — the except
handler only logs).  When the classify/extract/lookup chain of one message
raises, processing that message leaves every bucket unchanged, appends the
subject and error to the log, and the loop continues with the remaining
messages from the same bucket state. -/
theorem claim_c2 : ∀ (cy : Nat) (email : EmailMsg) (dept : Except PyErr (Option Cs))
    (err : PyErr) (results : RunResults) (log : List (Cs × PyErr))
    (rest : List (EmailMsg × Except PyErr (Option Cs))),
    peChain cy dept email = .error err →
    processSingleEmail cy dept email results log =
      (results, log ++ [(email.subject, err)]) ∧
    processEmails cy ((email, dept) :: rest) results log =
      processEmails cy rest results (log ++ [(email.subject, err)]) := by
  intro cy email dept err results log rest h
  have hsingle : processSingleEmail cy dept email results log =
      (results, log ++ [(email.subject, err)]) := by
    unfold processSingleEmail
    rw [h]
  exact ⟨hsingle, by rw [processEmails, hsingle]⟩

/-- The concrete message used for the C2 and C7 evidence: a valid outing report
whose worded afternoon time range drives the meridiem branch into an invalid
hour. -/
def crashEmail : EmailMsg :=
  ⟨"id1".toList, "[근태공유] 홍길동".toList, "외출 오후 13시 ~ 오후 14시".toList,
   "홍길동".toList, "hong@envision.co.kr".toList, "ts".toList⟩

/-- Witness for C2: the crashing message is logged with its subject and the
loop continues over the remaining messages unchanged. -/
theorem claim_c2_witness :
    peChain 2026 (.ok (some "개발".toList)) crashEmail = .error .valueError ∧
    processEmails 2026 [(crashEmail, .ok (some "개발".toList))] emptyResults [] =
      processEmails 2026 [] emptyResults [(crashEmail.subject, .valueError)] := by
  have h : peChain 2026 (.ok (some "개발".toList)) crashEmail = .error .valueError := by
    decide
  refine ⟨h, ?_⟩
  have h2 := claim_c2 2026 crashEmail (.ok (some "개발".toList)) .valueError
    emptyResults [] [] h
  simpa using h2.2

/-- Counterexample to C2 as stated: the crashing message is logged and skipped,
but the unclassified bucket stays EMPTY — the message is not routed there. -/
theorem claim_c2_cex :
    (processSingleEmail 2026 (.ok (some "개발".toList)) crashEmail emptyResults []).1.unclassified
      = [] ∧
    (processSingleEmail 2026 (.ok (some "개발".toList)) crashEmail emptyResults []).2
      = [(crashEmail.subject, .valueError)] := by
  constructor
  · decide
  · decide

/-- An ok time from the time constructor satisfies the clock bounds. -/
theorem mkTime_bounds (h m : Nat) (t : PyTime) (hk : mkTime h m = .ok t) :
    t.hour ≤ 23 ∧ t.minute ≤ 59 := by
  unfold mkTime at hk
  split at hk
  · rename_i hc
    injection hk with he
    subst he
    exact hc
  · cases hk

/-- A pair produced by the numeric branch satisfies the clock bounds. -/
theorem numericFam_bounds (g1 g2 g3 g4 : Cs) (t1 t2 : PyTime)
    (hk : numericFam g1 g2 g3 g4 = some (t1, t2)) :
    t1.hour ≤ 23 ∧ t1.minute ≤ 59 ∧ t2.hour ≤ 23 ∧ t2.minute ≤ 59 := by
  simp only [numericFam] at hk
  split at hk
  · split at hk
    · rename_i a b heq1 heq2
      injection hk with he
      obtain ⟨h1, h2⟩ := Prod.mk.inj he
      subst h1
      subst h2
      have b1 := mkTime_bounds _ _ _ heq1
      have b2 := mkTime_bounds _ _ _ heq2
      exact ⟨b1.1, b1.2, b2.1, b2.2⟩
    · exact Option.noConfusion hk
  · exact Option.noConfusion hk

/-- A pair produced by the meridiem branch satisfies the clock bounds. -/
theorem meridiemFam_bounds (a1 h1 a2 h2 : Cs) (t1 t2 : PyTime)
    (hk : meridiemFam a1 h1 a2 h2 = .ok (some (t1, t2))) :
    t1.hour ≤ 23 ∧ t1.minute ≤ 59 ∧ t2.hour ≤ 23 ∧ t2.minute ≤ 59 := by
  simp only [meridiemFam] at hk
  split at hk
  · exact Except.noConfusion hk
  · rename_i a heq1
    split at hk
    · exact Except.noConfusion hk
    · rename_i b heq2
      injection hk with he
      injection he with he2
      obtain ⟨hh1, hh2⟩ := Prod.mk.inj he2
      subst hh1
      subst hh2
      have b1 := mkTime_bounds _ _ _ heq1
      have b2 := mkTime_bounds _ _ _ heq2
      exact ⟨b1.1, b1.2, b2.1, b2.2⟩

/-- The meridiem stage only returns in-bounds times when it returns at all. -/
theorem etrFam3_bounds (body : Cs) (t1 t2 : PyTime)
    (hk : etrFam3 body = .ok (some (t1, t2))) :
    t1.hour ≤ 23 ∧ t1.minute ≤ 59 ∧ t2.hour ≤ 23 ∧ t2.minute ≤ 59 := by
  unfold etrFam3 at hk
  split at hk
  · exact meridiemFam_bounds _ _ _ _ _ _ hk
  · injection hk with he
    exact Option.noConfusion he

/-- The colon stage only returns in-bounds times. -/
theorem etrFam2_bounds (body : Cs) (t1 t2 : PyTime)
    (hk : etrFam2 body = .ok (some (t1, t2))) :
    t1.hour ≤ 23 ∧ t1.minute ≤ 59 ∧ t2.hour ≤ 23 ∧ t2.minute ≤ 59 := by
  unfold etrFam2 at hk
  split at hk
  · split at hk
    · rename_i r heq
      injection hk with he
      injection he with he2
      obtain ⟨hh1, hh2⟩ := Prod.mk.inj he2
      subst hh1
      subst hh2
      exact numericFam_bounds _ _ _ _ _ _ heq
    · exact etrFam3_bounds _ _ _ hk
  · exact etrFam3_bounds _ _ _ hk

/-- C7 (code bug in the meridiem branch).  The numeric families reject hours
above 23 and minutes above 59 and the scan continues without raising, and every
returned pair is within clock bounds; but the meridiem branch constructs the
time outside the try/except, so the worded input with a 13-hour afternoon time
raises ValueError instead of returning an optional pair — the extractor is not
total. -/
theorem claim_c7 :
    extractTimeRange "오후 13시 ~ 오후 14시".toList = .error .valueError ∧
    extractTimeRange "25시 00분 ~ 26시 00분".toList = .ok none ∧
    extractTimeRange "10시 70분 ~ 11시 80분".toList = .ok none ∧
    extractTimeRange "외출 시간: 14시 00분 ~ 16시 30분".toList =
      .ok (some (⟨14, 0⟩, ⟨16, 30⟩)) ∧
    (∀ (body : Cs) (t1 t2 : PyTime), extractTimeRange body = .ok (some (t1, t2)) →
      t1.hour ≤ 23 ∧ t1.minute ≤ 59 ∧ t2.hour ≤ 23 ∧ t2.minute ≤ 59) := by
  refine ⟨by decide, by decide, by decide, by decide, ?_⟩
  intro body t1 t2 hk
  unfold extractTimeRange at hk
  split at hk
  · split at hk
    · rename_i r heq
      injection hk with he
      injection he with he2
      obtain ⟨hh1, hh2⟩ := Prod.mk.inj he2
      subst hh1
      subst hh2
      exact numericFam_bounds _ _ _ _ _ _ heq
    · exact etrFam2_bounds _ _ _ hk
  · exact etrFam2_bounds _ _ _ hk

/-- Witness for C7: a well-formed colon range goes through the bounds statement. -/
theorem claim_c7_witness :
    extractTimeRange "시간: 09:30 ~ 11:00".toList = .ok (some (⟨9, 30⟩, ⟨11, 0⟩)) ∧
    (9 ≤ 23 ∧ 30 ≤ 59 ∧ 11 ≤ 23 ∧ 0 ≤ 59) :=
  ⟨by decide,
   claim_c7.2.2.2.2 "시간: 09:30 ~ 11:00".toList ⟨9, 30⟩ ⟨11, 0⟩ (by decide)⟩

/-- C8 (amended: the unknown-applicant sentinel is produced only when the sender
display name itself is empty; a non-empty sender whose derivation is empty, such
as a bare angle-bracketed address, yields the EMPTY string, not the sentinel).
When no applicant-label pattern matches, the applicant falls back to the sender
display name: a leading Hangul run if present, else the stripped text before
any angle bracket. -/
theorem claim_c8 :
    (∀ body sender : Cs, applicantSearch body = none → sender ≠ [] →
      extractApplicant body sender =
        (match leadHangul sender with
         | some run => run
         | none => pyStrip (takeBeforeLt sender))) ∧
    (∀ body : Cs, applicantSearch body = none →
      extractApplicant body [] = "미상".toList) ∧
    extractApplicant "휴가 신청합니다.".toList "<hong@company.com>".toList = [] := by
  refine ⟨?_, ?_, by decide⟩
  · intro body sender h hne
    unfold extractApplicant
    rw [h]
    simp [hne]
  · intro body h
    unfold extractApplicant
    rw [h]
    simp

/-- Witness for C8: a body without any applicant label and a Hangul sender name
falls back to the sender's leading Hangul run. -/
theorem claim_c8_witness :
    applicantSearch "휴가 신청합니다.".toList = none ∧
    extractApplicant "휴가 신청합니다.".toList "김철수".toList = "김철수".toList ∧
    extractApplicant "휴가 신청합니다.".toList [] = "미상".toList := by
  refine ⟨by decide, ?_, ?_⟩
  · exact (claim_c8.1 "휴가 신청합니다.".toList "김철수".toList (by decide)
      (by decide)).trans (by decide)
  · exact claim_c8.2.1 "휴가 신청합니다.".toList (by decide)

/-- Counterexample to C8 as stated: for a sender that is only an angle-bracketed
address the derivation is empty, and parse returns the empty applicant, not the
unknown-applicant sentinel. -/
theorem claim_c8_cex :
    applicantSearch "휴가 신청합니다.".toList = none ∧
    parsedApplicant 2026 "휴가 신청합니다.".toList "<hong@company.com>".toList []
      = some [] ∧
    some ([] : Cs) ≠ some "미상".toList := by
  refine ⟨by decide, by decide, by decide⟩

/-! ### Ingestion-loop lemmas for C3 -/

/-- One loop step only adds to the seen set. -/
theorem histStep_seen_sub (n : Cs) (st : IngestState) (m : HistMsg) :
    st.seen ⊆ (histStep n st m).seen := by
  unfold histStep
  cases extractHist n m with
  | none => exact fun x hx => hx
  | some e =>
    dsimp only
    by_cases h : (e.name, e.date) ∈ st.seen
    · rw [if_pos h]
      exact fun x hx => hx
    · rw [if_neg h]
      exact List.subset_append_left _ _

/-- The whole loop only adds to the seen set. -/
theorem foldl_seen_sub (n : Cs) (msgs : List HistMsg) (st : IngestState) :
    st.seen ⊆ (msgs.foldl (histStep n) st).seen := by
  induction msgs generalizing st with
  | nil => exact fun x hx => hx
  | cons m rest ih =>
    exact fun x hx => ih (histStep n st m) (histStep_seen_sub n st m hx)

/-- After processing a message that extracts, its key is in the seen set. -/
theorem histStep_key_mem (n : Cs) (st : IngestState) (m : HistMsg) (e : DeductionEntry)
    (hx : extractHist n m = some e) : (e.name, e.date) ∈ (histStep n st m).seen := by
  unfold histStep
  rw [hx]
  dsimp only
  by_cases h : (e.name, e.date) ∈ st.seen
  · rw [if_pos h]; exact h
  · rw [if_neg h]
    exact List.mem_append_right _ (List.mem_singleton.mpr rfl)

/-- After the loop, the key of every extracting message of the list is seen. -/
theorem foldl_key_mem (n : Cs) (msgs : List HistMsg) (st : IngestState) (m : HistMsg)
    (e : DeductionEntry) (hm : m ∈ msgs) (hx : extractHist n m = some e) :
    (e.name, e.date) ∈ (msgs.foldl (histStep n) st).seen := by
  induction msgs generalizing st with
  | nil => cases hm
  | cons m' rest ih =>
    rcases List.mem_cons.mp hm with h | h
    · subst h
      exact foldl_seen_sub n rest (histStep n st m) (histStep_key_mem n st m e hx)
    · exact ih _ h

/-- A message whose (possible) key is already seen leaves the state unchanged. -/
theorem histStep_frozen (n : Cs) (st : IngestState) (m : HistMsg)
    (h : ∀ e, extractHist n m = some e → (e.name, e.date) ∈ st.seen) :
    histStep n st m = st := by
  unfold histStep
  cases hx : extractHist n m with
  | none => rfl
  | some e =>
    dsimp only
    rw [if_pos (h e hx)]

/-- A list of messages all of whose keys are already seen leaves the state
unchanged. -/
theorem foldl_frozen (n : Cs) (msgs : List HistMsg) (st : IngestState)
    (h : ∀ m ∈ msgs, ∀ e, extractHist n m = some e → (e.name, e.date) ∈ st.seen) :
    msgs.foldl (histStep n) st = st := by
  induction msgs with
  | nil => rfl
  | cons m rest ih =>
    rw [List.foldl_cons, histStep_frozen n st m (h m (List.mem_cons_self m rest))]
    exact ih (fun m' hm' => h m' (List.mem_cons_of_mem m hm'))

/-- The ingestion invariant: entry keys are pairwise distinct and every entry
key is in the seen set. -/
def IngestInv (st : IngestState) : Prop :=
  st.entries.Pairwise (fun a b => ¬(a.name = b.name ∧ a.date = b.date)) ∧
  ∀ e ∈ st.entries, (e.name, e.date) ∈ st.seen

/-- One loop step preserves the ingestion invariant. -/
theorem histStep_inv (n : Cs) (st : IngestState) (m : HistMsg) (h : IngestInv st) :
    IngestInv (histStep n st m) := by
  unfold histStep
  cases hx : extractHist n m with
  | none => exact h
  | some e =>
    dsimp only
    by_cases hk : (e.name, e.date) ∈ st.seen
    · rw [if_pos hk]; exact h
    · rw [if_neg hk]
      constructor
      · rw [List.pairwise_append]
        refine ⟨h.1, List.pairwise_singleton _ _, ?_⟩
        intro a ha b hb
        rw [List.mem_singleton] at hb
        subst hb
        intro hab
        apply hk
        have := h.2 a ha
        rw [← hab.1, ← hab.2]
        exact this
      · intro x hx2
        rcases List.mem_append.mp hx2 with h2 | h2
        · exact List.mem_append_left _ (h.2 x h2)
        · rw [List.mem_singleton] at h2
          subst h2
          exact List.mem_append_right _ (List.mem_singleton.mpr rfl)

/-- The loop preserves the ingestion invariant. -/
theorem foldl_inv (n : Cs) (msgs : List HistMsg) (st : IngestState) (h : IngestInv st) :
    IngestInv (msgs.foldl (histStep n) st) := by
  induction msgs generalizing st with
  | nil => exact h
  | cons m rest ih => exact ih (histStep n st m) (histStep_inv n st m h)

/-- One loop step keeps every already-collected entry. -/
theorem histStep_entries_sub (n : Cs) (st : IngestState) (m : HistMsg) :
    st.entries ⊆ (histStep n st m).entries := by
  unfold histStep
  cases extractHist n m with
  | none => exact fun x hx => hx
  | some e =>
    dsimp only
    by_cases h : (e.name, e.date) ∈ st.seen
    · rw [if_pos h]
      exact fun x hx => hx
    · rw [if_neg h]
      exact List.subset_append_left _ _

/-- The loop keeps every already-collected entry. -/
theorem foldl_entries_sub (n : Cs) (msgs : List HistMsg) (st : IngestState) :
    st.entries ⊆ (msgs.foldl (histStep n) st).entries := by
  induction msgs generalizing st with
  | nil => exact fun x hx => hx
  | cons m rest ih =>
    exact fun x hx => ih (histStep n st m) (histStep_entries_sub n st m hx)

/-- First-wins, state-general form: if no earlier message extracts to the same
key and the key is not yet seen, the entry of the first message carrying it is
collected verbatim. -/
theorem first_wins_from (n : Cs) (msgs1 : List HistMsg) (st : IngestState)
    (m : HistMsg) (msgs2 : List HistMsg) (e : DeductionEntry)
    (hx : extractHist n m = some e)
    (hseen : (e.name, e.date) ∉ st.seen)
    (hbefore : ∀ m' ∈ msgs1, ∀ e', extractHist n m' = some e' →
      (e'.name, e'.date) ≠ (e.name, e.date)) :
    e ∈ ((msgs1 ++ m :: msgs2).foldl (histStep n) st).entries := by
  induction msgs1 generalizing st with
  | nil =>
    rw [List.nil_append, List.foldl_cons]
    apply foldl_entries_sub
    unfold histStep
    rw [hx]
    dsimp only
    rw [if_neg hseen]
    exact List.mem_append_right _ (List.mem_singleton.mpr rfl)
  | cons m' rest ih =>
    rw [List.cons_append, List.foldl_cons]
    have hseen' : (e.name, e.date) ∉ (histStep n st m').seen := by
      unfold histStep
      cases hx' : extractHist n m' with
      | none => exact hseen
      | some e' =>
        dsimp only
        by_cases hk : (e'.name, e'.date) ∈ st.seen
        · rw [if_pos hk]; exact hseen
        · rw [if_neg hk]
          intro hmem
          rcases List.mem_append.mp hmem with h2 | h2
          · exact hseen h2
          · rw [List.mem_singleton] at h2
            exact hbefore m' (List.mem_cons_self m' rest) e' hx' h2.symm
    exact ih (histStep n st m') hseen'
      (fun m'' hm'' => hbefore m'' (List.mem_cons_of_mem m' hm''))

/-- C3.  The ingested deduction history has at most one entry per
(employee name, date) key; the first message seen for a key wins, with later
duplicates ignored; and replaying the same folder twice leaves every employee's
already-deducted sum unchanged. -/
theorem claim_c3 :
    (∀ (nowStr : Cs) (msgs : List HistMsg),
      (ingestHistory nowStr msgs).Pairwise
        (fun a b => ¬(a.name = b.name ∧ a.date = b.date))) ∧
    (∀ (nowStr : Cs) (msgs1 : List HistMsg) (m : HistMsg) (msgs2 : List HistMsg)
        (e : DeductionEntry),
      extractHist nowStr m = some e →
      (∀ m' ∈ msgs1, ∀ e', extractHist nowStr m' = some e' →
        (e'.name, e'.date) ≠ (e.name, e.date)) →
      e ∈ ingestHistory nowStr (msgs1 ++ m :: msgs2)) ∧
    (∀ (nowStr : Cs) (msgs : List HistMsg) (nm : Cs),
      alreadyDeducted (ingestHistory nowStr (msgs ++ msgs)) nm =
        alreadyDeducted (ingestHistory nowStr msgs) nm) := by
  refine ⟨?_, ?_, ?_⟩
  · intro n msgs
    exact (foldl_inv n msgs ⟨[], []⟩ ⟨List.Pairwise.nil, by intro e he; cases he⟩).1
  · intro n msgs1 m msgs2 e hx hbefore
    exact first_wins_from n msgs1 ⟨[], []⟩ m msgs2 e hx (by intro h; cases h) hbefore
  · intro n msgs nm
    have hreplay : ingestHistory n (msgs ++ msgs) = ingestHistory n msgs := by
      unfold ingestHistory
      rw [List.foldl_append]
      rw [foldl_frozen n msgs (msgs.foldl (histStep n) ⟨[], []⟩)
        (fun m hm e hx => foldl_key_mem n msgs ⟨[], []⟩ m e hm hx)]
    rw [hreplay]

/-- The concrete history messages of the C3 witness: two same-day notifications
for the same employee with different minute counts. -/
def histMsg1 : HistMsg :=
  ⟨"[근태공유] Hong(0.25일, 휴가차감)".toList, "<p>4. 시간:</p> 120분".toList,
   some ⟨2025, 3, 4⟩⟩

/-- Second, later-scanned duplicate for the same (name, day) key. -/
def histMsg2 : HistMsg :=
  ⟨"[근태공유] Hong(0.5일, 휴가차감)".toList, "<p>4. 시간:</p> 240분".toList,
   some ⟨2025, 3, 4⟩⟩

/-- Witness for C3: the first-seen 120-minute entry wins, the duplicate is
dropped, and replaying the two messages changes no sums. -/
theorem claim_c3_witness :
    extractHist "2025-01-01".toList histMsg1 =
      some ⟨"Hong".toList, "2025-03-04".toList, 120⟩ ∧
    (⟨"Hong".toList, "2025-03-04".toList, 120⟩ : DeductionEntry) ∈
      ingestHistory "2025-01-01".toList ([] ++ histMsg1 :: [histMsg2]) ∧
    ingestHistory "2025-01-01".toList [histMsg1, histMsg2] =
      [⟨"Hong".toList, "2025-03-04".toList, 120⟩] ∧
    alreadyDeducted
        (ingestHistory "2025-01-01".toList ([histMsg1, histMsg2] ++ [histMsg1, histMsg2]))
        "Hong".toList =
      alreadyDeducted (ingestHistory "2025-01-01".toList [histMsg1, histMsg2])
        "Hong".toList :=
  ⟨by decide,
   claim_c3.2.1 "2025-01-01".toList [] histMsg1 [histMsg2] _ (by decide) (by simp),
   by decide,
   claim_c3.2.2 "2025-01-01".toList [histMsg1, histMsg2] "Hong".toList⟩

/-! ### Calendar lemmas for C5 and C6 -/

/-- Month lengths lie between 28 and 31. -/
theorem daysInMonth_bounds (y m : Nat) : 28 ≤ daysInMonth y m ∧ daysInMonth y m ≤ 31 := by
  unfold daysInMonth
  split
  · split <;> omega
  · split <;> omega

/-- The successor of a field-valid date is field-valid. -/
theorem nextDay_okFields (d : PyDate) (h : d.okFields) : d.nextDay.okFields := by
  obtain ⟨h1, h2, h3, h4⟩ := h
  unfold PyDate.nextDay
  split
  next hlt =>
    simp only [PyDate.okFields]
    omega
  next hge =>
    split
    next hm =>
      have hb := (daysInMonth_bounds d.year (d.month + 1)).1
      simp only [PyDate.okFields]
      omega
    next hm =>
      have hb := (daysInMonth_bounds (d.year + 1) 1).1
      simp only [PyDate.okFields]
      omega

/-- The key strictly increases along the successor. -/
theorem key_lt_nextDay (d : PyDate) (h : d.okFields) : d.key < d.nextDay.key := by
  obtain ⟨h1, h2, h3, h4⟩ := h
  have hb := daysInMonth_bounds d.year d.month
  unfold PyDate.nextDay
  split
  next hlt =>
    simp only [PyDate.key]
    omega
  next hge =>
    split
    next hm =>
      simp only [PyDate.key]
      omega
    next hm =>
      simp only [PyDate.key]
      omega

/-- The key is injective on field-valid dates. -/
theorem key_inj (d x : PyDate) (hd : d.okFields) (hx : x.okFields)
    (h : d.key = x.key) : d = x := by
  obtain ⟨a1, a2, a3, a4⟩ := hd
  obtain ⟨b1, b2, b3, b4⟩ := hx
  have c1 := (daysInMonth_bounds d.year d.month).2
  have c2 := (daysInMonth_bounds x.year x.month).2
  unfold PyDate.key at h
  have he : d.year = x.year ∧ d.month = x.month ∧ d.day = x.day := by omega
  obtain ⟨e1, e2, e3⟩ := he
  cases d
  cases x
  dsimp only at e1 e2 e3
  subst e1
  subst e2
  subst e3
  rfl

/-- The successor is the immediate successor among field-valid dates: a valid
date whose key sits in the half-open key interval from d to d's successor is d
itself. -/
theorem succ_squeeze (d x : PyDate) (hd : d.okFields) (hx : x.okFields)
    (hlow : d.key ≤ x.key) (hhigh : x.key < d.nextDay.key) : x = d := by
  obtain ⟨a1, a2, a3, a4⟩ := hd
  obtain ⟨b1, b2, b3, b4⟩ := hx
  have c1 := (daysInMonth_bounds d.year d.month).2
  have c1l := (daysInMonth_bounds d.year d.month).1
  have c2 := (daysInMonth_bounds x.year x.month).2
  unfold PyDate.nextDay at hhigh
  split at hhigh
  next hlt =>
    simp only [PyDate.key] at hlow hhigh
    refine (key_inj d x ⟨a1, a2, a3, a4⟩ ⟨b1, b2, b3, b4⟩ ?_).symm
    simp only [PyDate.key]
    omega
  next hge =>
    split at hhigh
    next hm =>
      simp only [PyDate.key] at hlow hhigh
      have hxy : x.year = d.year := by omega
      have hxm : x.month = d.month := by omega
      have hdimx : daysInMonth x.year x.month = daysInMonth d.year d.month := by
        rw [hxy, hxm]
      refine key_inj x d ⟨b1, b2, b3, b4⟩ ⟨a1, a2, a3, a4⟩ ?_
      simp only [PyDate.key]
      omega
    next hm =>
      simp only [PyDate.key] at hlow hhigh
      have hm12 : d.month = 12 := by omega
      have hdim : daysInMonth d.year d.month = 31 := by
        rw [hm12]; unfold daysInMonth; norm_num
      refine key_inj x d ⟨b1, b2, b3, b4⟩ ⟨a1, a2, a3, a4⟩ ?_
      simp only [PyDate.key]
      omega

/-- Range loop: every collected day is field-valid. -/
theorem rangeDays_okFields (e : PyDate) (fuel : Nat) (cur : PyDate)
    (hc : cur.okFields) : ∀ d ∈ rangeDays e fuel cur, d.okFields := by
  induction fuel generalizing cur with
  | zero => intro d hd; cases hd
  | succ n ih =>
    intro d hd
    unfold rangeDays at hd
    split at hd
    · rcases List.mem_cons.mp hd with h | h
      · subst h; exact hc
      · exact ih cur.nextDay (nextDay_okFields cur hc) d h
    · cases hd

/-- Range loop: every collected day lies between the cursor and the end date. -/
theorem rangeDays_mem_bounds (e : PyDate) (fuel : Nat) (cur : PyDate)
    (hc : cur.okFields) :
    ∀ d ∈ rangeDays e fuel cur, cur.key ≤ d.key ∧ d.key ≤ e.key := by
  induction fuel generalizing cur with
  | zero => intro d hd; cases hd
  | succ n ih =>
    intro d hd
    unfold rangeDays at hd
    split at hd
    next hle =>
      rcases List.mem_cons.mp hd with h | h
      · subst h; exact ⟨Nat.le_refl _, hle⟩
      · have := ih cur.nextDay (nextDay_okFields cur hc) d h
        exact ⟨le_of_lt (lt_of_lt_of_le (key_lt_nextDay cur hc) this.1), this.2⟩
    next => cases hd

/-- Range loop: the keys of the collected days are strictly increasing. -/
theorem rangeDays_pairwise (e : PyDate) (fuel : Nat) (cur : PyDate)
    (hc : cur.okFields) :
    (rangeDays e fuel cur).Pairwise (fun a b => a.key < b.key) := by
  induction fuel generalizing cur with
  | zero => exact List.Pairwise.nil
  | succ n ih =>
    unfold rangeDays
    split
    · refine List.pairwise_cons.mpr ⟨?_, ih cur.nextDay (nextDay_okFields cur hc)⟩
      intro b hb
      have := rangeDays_mem_bounds e n cur.nextDay (nextDay_okFields cur hc) b hb
      exact lt_of_lt_of_le (key_lt_nextDay cur hc) this.1
    · exact List.Pairwise.nil

/-- Range loop: a nonempty result starts at the cursor. -/
theorem rangeDays_head (e : PyDate) (fuel : Nat) (cur : PyDate) :
    rangeDays e fuel cur = [] ∨
    (rangeDays e fuel cur).head? = some cur := by
  cases fuel with
  | zero => exact Or.inl rfl
  | succ n =>
    unfold rangeDays
    split
    · exact Or.inr rfl
    · exact Or.inl rfl

/-- Range loop: successive collected days are successor-related. -/
theorem rangeDays_chain (e : PyDate) (fuel : Nat) (cur : PyDate) :
    (rangeDays e fuel cur).Chain' (fun a b => b = a.nextDay) := by
  induction fuel generalizing cur with
  | zero => exact List.chain'_nil
  | succ n ih =>
    unfold rangeDays
    split
    · refine List.chain'_cons'.mpr ⟨?_, ih cur.nextDay⟩
      intro y hy
      rcases rangeDays_head e n cur.nextDay with h | h
      · rw [h] at hy; cases hy
      · rw [h] at hy
        injection hy with hy2
        exact hy2.symm
    · exact List.chain'_nil

/-- Range loop: at most fuel-many days are collected. -/
theorem rangeDays_length (e : PyDate) (fuel : Nat) (cur : PyDate) :
    (rangeDays e fuel cur).length ≤ fuel := by
  induction fuel generalizing cur with
  | zero => exact Nat.le_refl 0
  | succ n ih =>
    unfold rangeDays
    split
    · simpa using Nat.succ_le_succ (ih cur.nextDay)
    · exact Nat.zero_le _

/-- Range loop: a cursor beyond the end date collects nothing. -/
theorem rangeDays_nil (e : PyDate) (fuel : Nat) (cur : PyDate)
    (h : ¬ cur.key ≤ e.key) : rangeDays e fuel cur = [] := by
  cases fuel with
  | zero => rfl
  | succ n => unfold rangeDays; rw [if_neg h]

/-- Range loop: a start at most the end date is collected. -/
theorem rangeDays_start_mem (e : PyDate) (fuel : Nat) (cur : PyDate)
    (h : cur.key ≤ e.key) (hf : 0 < fuel) : cur ∈ rangeDays e fuel cur := by
  cases fuel with
  | zero => cases hf
  | succ n =>
    unfold rangeDays
    rw [if_pos h]
    exact List.mem_cons_self _ _

/-- Range loop: unless the cap cut the collection short, the end date itself is
collected. -/
theorem rangeDays_end_mem (e : PyDate) (fuel : Nat) (cur : PyDate)
    (hc : cur.okFields) (he : e.okFields)
    (hlen : (rangeDays e fuel cur).length < fuel) (hle : cur.key ≤ e.key) :
    e ∈ rangeDays e fuel cur := by
  induction fuel generalizing cur with
  | zero => cases hlen
  | succ n ih =>
    rw [rangeDays] at hlen ⊢
    rw [if_pos hle] at hlen ⊢
    by_cases hnd : cur.nextDay.key ≤ e.key
    · have : (rangeDays e n cur.nextDay).length < n := by
        simpa using Nat.lt_of_succ_lt_succ hlen
      exact List.mem_cons_of_mem _ (ih cur.nextDay (nextDay_okFields cur hc) this hnd)
    · have hsq : e = cur :=
        succ_squeeze cur e hc he hle (by omega)
      rw [hsq]
      exact List.mem_cons_self _ _

/-- sorted(set(l)) of a list with strictly increasing keys is the list itself. -/
theorem pySortedSet_eq (l : List PyDate)
    (h : l.Pairwise (fun a b => a.key < b.key)) : pySortedSet l = l := by
  unfold pySortedSet
  have hnd : l.Nodup := by
    refine h.imp ?_
    intro a b hab heq
    rw [heq] at hab
    exact lt_irrefl _ hab
  rw [List.dedup_eq_self.mpr hnd]
  refine List.Sorted.insertionSort_eq ?_
  exact h.imp (fun hab => le_of_lt hab)

/-- A date built by the date constructor is field-valid. -/
theorem mkDate_okFields (y m dd : Nat) (d : PyDate) (h : mkDate y m dd = some d) :
    d.okFields := by
  unfold mkDate at h
  split at h
  next hc =>
    injection h with h2
    subst h2
    exact hc.2.2
  next => cases h

/-- A date produced by the month-day fallback of _parse_single_date is
field-valid. -/
theorem parseSingleDateB_okFields (ds : Cs) (cy : Nat) (d : PyDate)
    (h : parseSingleDate.parseSingleDateB ds cy = some d) : d.okFields := by
  unfold parseSingleDate.parseSingleDateB at h
  split at h
  · exact mkDate_okFields _ _ _ _ h
  · cases h

/-- A date produced by _parse_single_date is field-valid. -/
theorem parseSingleDate_okFields (ds : Cs) (cy : Nat) (d : PyDate)
    (h : parseSingleDate ds cy = some d) : d.okFields := by
  unfold parseSingleDate at h
  split at h
  · split at h
    next d' heq =>
      injection h with h2
      subst h2
      exact mkDate_okFields _ _ _ _ heq
    next => exact parseSingleDateB_okFields _ _ _ h
  · exact parseSingleDateB_okFields _ _ _ h

/-- On a successful, reasonable, rightly-ordered range match, date extraction is
exactly the capped materialisation loop. -/
theorem extractDates_range_eq (cy : Nat) (body g1 g2 rest : Cs) (s e : PyDate)
    (hsearch : reSearch rangeAt (cleanBody body) = some ((g1, g2), rest))
    (hp1 : parseSingleDate g1 cy = some s)
    (hp2 : parseSingleDate g2 cy = some e)
    (hr1 : isReasonable s cy = true)
    (hr2 : isReasonable e cy = true)
    (hle : s.key ≤ e.key) :
    extractDates cy body = rangeDays e 30 s := by
  have hsOk := parseSingleDate_okFields g1 cy s hp1
  have hcons : rangeDays e 30 s = s :: rangeDays e 29 s.nextDay := by
    conv_lhs => unfold rangeDays
    rw [if_pos hle]
  have hne : (rangeDays e 30 s).isEmpty = false := by rw [hcons]; rfl
  have hps := pySortedSet_eq _ (rangeDays_pairwise e 30 s hsOk)
  simp [extractDates, hsearch, hp1, hp2, hr1, hr2, hne, hps]

/-- C5 (amended: when the range is reversed, i.e. the start date is after the
end date, the loop materialises nothing and the scan falls back to single-date
extraction; the claimed shape holds whenever the start is on or before the end).
When the range pattern matches, both endpoints parse, both are within a year of
the current year, and the start is at most the end, the extracted list is
exactly the consecutive calendar days from start to end inclusive, capped at 30,
sorted strictly ascending and duplicate-free; "2024.1.15 ~ 2024.1.17" yields
exactly January 15, 16, 17 of 2024. -/
theorem claim_c5 :
    (∀ (cy : Nat) (body g1 g2 rest : Cs) (s e : PyDate),
      reSearch rangeAt (cleanBody body) = some ((g1, g2), rest) →
      parseSingleDate g1 cy = some s →
      parseSingleDate g2 cy = some e →
      isReasonable s cy = true →
      isReasonable e cy = true →
      s.key ≤ e.key →
      extractDates cy body = rangeDays e 30 s ∧
      s ∈ extractDates cy body ∧
      (extractDates cy body).Chain' (fun a b => b = a.nextDay) ∧
      (∀ d ∈ extractDates cy body, s.key ≤ d.key ∧ d.key ≤ e.key) ∧
      (extractDates cy body).length ≤ 30 ∧
      ((extractDates cy body).length < 30 → e ∈ extractDates cy body) ∧
      (extractDates cy body).Pairwise (fun a b => a.key < b.key)) ∧
    extractDates 2024 "2024.1.15 ~ 2024.1.17".toList =
      [⟨2024, 1, 15⟩, ⟨2024, 1, 16⟩, ⟨2024, 1, 17⟩] := by
  constructor
  · intro cy body g1 g2 rest s e hsearch hp1 hp2 hr1 hr2 hle
    have hsOk := parseSingleDate_okFields g1 cy s hp1
    have heOk := parseSingleDate_okFields g2 cy e hp2
    have heq := extractDates_range_eq cy body g1 g2 rest s e hsearch hp1 hp2 hr1 hr2 hle
    rw [heq]
    exact ⟨rfl, rangeDays_start_mem e 30 s hle (by norm_num),
      rangeDays_chain e 30 s,
      rangeDays_mem_bounds e 30 s hsOk,
      rangeDays_length e 30 s,
      fun hlen => rangeDays_end_mem e 30 s hsOk heOk hlen hle,
      rangeDays_pairwise e 30 s hsOk⟩
  · decide

/-- Witness for C5: the spec's own example instantiates every hypothesis. -/
theorem claim_c5_witness :
    reSearch rangeAt (cleanBody "2024.1.15 ~ 2024.1.17".toList) =
      some (("2024.1.15".toList, "2024.1.17".toList), []) ∧
    parseSingleDate "2024.1.15".toList 2024 = some ⟨2024, 1, 15⟩ ∧
    parseSingleDate "2024.1.17".toList 2024 = some ⟨2024, 1, 17⟩ ∧
    extractDates 2024 "2024.1.15 ~ 2024.1.17".toList =
      rangeDays ⟨2024, 1, 17⟩ 30 ⟨2024, 1, 15⟩ :=
  ⟨by decide, by decide, by decide,
   (claim_c5.1 2024 "2024.1.15 ~ 2024.1.17".toList "2024.1.15".toList
     "2024.1.17".toList [] ⟨2024, 1, 15⟩ ⟨2024, 1, 17⟩
     (by decide) (by decide) (by decide) (by decide) (by decide) (by decide)).1⟩

/-- Counterexample to C5 as stated: for a reversed range every hypothesis of the
claim holds, but the extracted list is a single fallback date rather than the
empty day enumeration from start to end. -/
theorem claim_c5_cex :
    reSearch rangeAt (cleanBody "2024.1.17 ~ 2024.1.15".toList) =
      some (("2024.1.17".toList, "2024.1.15".toList), []) ∧
    parseSingleDate "2024.1.17".toList 2024 = some ⟨2024, 1, 17⟩ ∧
    parseSingleDate "2024.1.15".toList 2024 = some ⟨2024, 1, 15⟩ ∧
    isReasonable ⟨2024, 1, 17⟩ 2024 = true ∧
    isReasonable ⟨2024, 1, 15⟩ 2024 = true ∧
    extractDates 2024 "2024.1.17 ~ 2024.1.15".toList = [⟨2024, 1, 17⟩] ∧
    ([⟨2024, 1, 17⟩] : List PyDate) ≠ [] := by
  refine ⟨by decide, by decide, by decide, by decide, by decide, by decide, by decide⟩

/-- sorted(set()) with the empty-guard keeps a short list short. -/
theorem pySortedSet_len_le_one (dates : List PyDate) (h : dates.length ≤ 1) :
    (if dates.isEmpty then [] else pySortedSet dates).length ≤ 1 := by
  match dates with
  | [] => simp
  | [d] =>
    rw [pySortedSet_eq [d] (List.pairwise_singleton _ _)]
    simp
  | a :: b :: rest => simp at h

/-- C6.  When no date range matches (in the phone-stripped body the scan
actually runs on), the extracted date list has at most one element: the scan
stops at the first family producing a date and takes only the first valid date
in it. -/
theorem claim_c6 : ∀ (cy : Nat) (body : Cs),
    reSearch rangeAt (cleanBody body) = none →
    (extractDates cy body).length ≤ 1 := by
  intro cy body h
  simp only [extractDates, h]
  apply pySortedSet_len_le_one
  cases (reFindAll fam1At (cleanBody body)).findSome? (tripleToDate cy) with
  | some d => simp
  | none =>
    cases (reFindAll fam2At (cleanBody body)).findSome? (tripleToDate cy) with
    | some d => simp
    | none =>
      cases (reFindAll fam3At (cleanBody body)).findSome? (pairToDate cy) with
      | some d => simp
      | none => simp

/-- Witness for C6: a body mentioning three unrelated dates still yields exactly
the first one. -/
theorem claim_c6_witness :
    reSearch rangeAt (cleanBody "1월 15일, 1월 20일, 3/7".toList) = none ∧
    (extractDates 2025 "1월 15일, 1월 20일, 3/7".toList).length ≤ 1 ∧
    extractDates 2025 "1월 15일, 1월 20일, 3/7".toList = [⟨2025, 1, 15⟩] :=
  ⟨by decide, claim_c6 2025 "1월 15일, 1월 20일, 3/7".toList (by decide), by decide⟩

end AttendanceAgent
